import Mathlib

/-!
Verification development for the AutoScore scoring-orchestration core.

The definitions below are shallow embeddings of the Python code in
`app/services/llm_service.py`, `app/services/gemini_service.py` and
`app/services/scoring_service.py`.  Python dictionaries decoded from JSON are
modelled by the inductive type `Py`; machine floats are modelled by rationals
(the scoring code only ever coerces and truncates decimal literals); fallible
code returns `Option`.
-/

namespace AutoScore

/-- Python values as produced by `json.loads` and handled by the
response-normalisation code. -/
inductive Py where
  | none : Py
  | bool : Bool → Py
  | int : Int → Py
  | float : ℚ → Py
  | str : String → Py
  | list : List Py → Py
  | dict : List (String × Py) → Py

/-- Truthiness of a Python value (`if x:`). -/
def pyTruthy : Py → Bool
  | Py.none => false
  | Py.bool b => b
  | Py.int n => n ≠ 0
  | Py.float q => q ≠ 0
  | Py.str s => s ≠ ""
  | Py.list xs => ¬ xs.isEmpty
  | Py.dict fs => ¬ fs.isEmpty

/-- `d[k]` lookup on a decoded JSON object.  `json.loads` builds the dict by
inserting pairs in document order, so a duplicated key keeps its last value. -/
def dictGet (fs : List (String × Py)) (k : String) : Option Py :=
  (fs.reverse.find? (fun p => p.1 = k)).map (·.2)

/-- `d.get(k, default)`. -/
def dictGetD (fs : List (String × Py)) (k : String) (d : Py) : Py :=
  (dictGet fs k).getD d

/-- `k in d` membership test. -/
def dictHas (fs : List (String × Py)) (k : String) : Bool :=
  (dictGet fs k).isSome

/-- JSON (and Python `str.split`) whitespace. -/
def isPySpace (c : Char) : Bool :=
  c = ' ' ∨ c = '\t' ∨ c = '\n' ∨ c = '\x0d' ∨ c = '\x0b' ∨ c = '\x0c'

/-- Whitespace skipped by the JSON grammar. -/
def isJsonSpace (c : Char) : Bool :=
  c = ' ' ∨ c = '\t' ∨ c = '\n' ∨ c = '\x0d'

def skipJsonWs (cs : List Char) : List Char :=
  cs.dropWhile isJsonSpace

/-- Parse the body of a JSON string literal (after the opening quote),
returning the decoded characters and the input following the closing quote.
Only the single-character escapes are supported. -/
def parseJsonStr : List Char → Option (List Char × List Char)
  | [] => Option.none
  | '"' :: rest => some ([], rest)
  | '\\' :: e :: rest =>
    (match e with
     | '"' => some '"'
     | '\\' => some '\\'
     | '/' => some '/'
     | 'n' => some '\n'
     | 't' => some '\t'
     | 'r' => some '\x0d'
     | 'b' => some '\x08'
     | 'f' => some '\x0c'
     | _ => Option.none).bind
      (fun c => (parseJsonStr rest).map (fun (r : List Char × List Char) => (c :: r.1, r.2)))
  | '\\' :: [] => Option.none
  | c :: rest => (parseJsonStr rest).map (fun (r : List Char × List Char) => (c :: r.1, r.2))

/-- Digit run: `takeWhile isDigit` together with the remainder. -/
def takeDigits (cs : List Char) : List Char × List Char :=
  (cs.takeWhile Char.isDigit, cs.dropWhile Char.isDigit)

def digitsToNat (ds : List Char) : Nat :=
  ds.foldl (fun acc c => acc * 10 + (c.toNat - '0'.toNat)) 0

/-- Parse a JSON number (integer part strict about leading zeros, optional
fraction, optional exponent).  Integer literals decode to `Py.int`, everything
else to `Py.float`. -/
def parseJsonNum (cs : List Char) : Option (Py × List Char) :=
  let (neg, cs1) := match cs with
    | '-' :: rest => (true, rest)
    | _ => (false, cs)
  let intOk : Option (List Char × List Char) :=
    match cs1 with
    | '0' :: rest => some (['0'], rest)
    | c :: _ =>
      if c.isDigit && c != '0' then
        let (ds, rest) := takeDigits cs1
        some (ds, rest)
      else Option.none
    | [] => Option.none
  match intOk with
  | Option.none => Option.none
  | some (ds, rest1) =>
    let ipart : Nat := digitsToNat ds
    let (fracDs, rest2) : List Char × List Char :=
      match rest1 with
      | '.' :: r => takeDigits r
      | _ => ([], rest1)
    let fracBad : Bool := match rest1 with
      | '.' :: r => (r.takeWhile Char.isDigit).isEmpty
      | _ => false
    let (hasExp, expNeg, expDs, rest3) : Bool × Bool × List Char × List Char :=
      match rest2 with
      | 'e' :: '-' :: r => (true, true, (takeDigits r).1, (takeDigits r).2)
      | 'e' :: '+' :: r => (true, false, (takeDigits r).1, (takeDigits r).2)
      | 'e' :: r => (true, false, (takeDigits r).1, (takeDigits r).2)
      | 'E' :: '-' :: r => (true, true, (takeDigits r).1, (takeDigits r).2)
      | 'E' :: '+' :: r => (true, false, (takeDigits r).1, (takeDigits r).2)
      | 'E' :: r => (true, false, (takeDigits r).1, (takeDigits r).2)
      | _ => (false, false, [], rest2)
    if fracBad then Option.none
    else if hasExp && expDs.isEmpty then Option.none
    else
      let isFloat : Bool := hasExp || (match rest1 with | '.' :: _ => true | _ => false)
      if isFloat then
        let mantissa : ℚ :=
          (ipart : ℚ) + (digitsToNat fracDs : ℚ) / ((10 : ℚ) ^ fracDs.length)
        let scaled : ℚ :=
          if hasExp then
            if expNeg then mantissa / ((10 : ℚ) ^ digitsToNat expDs)
            else mantissa * ((10 : ℚ) ^ digitsToNat expDs)
          else mantissa
        some (Py.float (if neg then -scaled else scaled), rest3)
      else
        some (Py.int (if neg then -(ipart : Int) else (ipart : Int)), rest3)

mutual

/-- Recursive-descent JSON value parser (fuel-indexed for termination). -/
def parseJsonVal : Nat → List Char → Option (Py × List Char)
  | 0, _ => Option.none
  | Nat.succ f, cs =>
    match skipJsonWs cs with
    | '{' :: rest =>
      (match skipJsonWs rest with
       | '}' :: rest2 => some (Py.dict [], rest2)
       | _ => parseJsonObj f rest [])
    | '[' :: rest =>
      (match skipJsonWs rest with
       | ']' :: rest2 => some (Py.list [], rest2)
       | _ => parseJsonArr f rest [])
    | '"' :: rest => (parseJsonStr rest).map (fun r => (Py.str (String.mk r.1), r.2))
    | 't' :: 'r' :: 'u' :: 'e' :: rest => some (Py.bool true, rest)
    | 'f' :: 'a' :: 'l' :: 's' :: 'e' :: rest => some (Py.bool false, rest)
    | 'n' :: 'u' :: 'l' :: 'l' :: rest => some (Py.none, rest)
    | cs' => parseJsonNum cs'

/-- Members of a JSON object (after the opening brace, at least one member). -/
def parseJsonObj : Nat → List Char → List (String × Py) → Option (Py × List Char)
  | 0, _, _ => Option.none
  | Nat.succ f, cs, acc =>
    match skipJsonWs cs with
    | '"' :: rest =>
      match parseJsonStr rest with
      | Option.none => Option.none
      | some (key, rest2) =>
        match skipJsonWs rest2 with
        | ':' :: rest3 =>
          match parseJsonVal f rest3 with
          | Option.none => Option.none
          | some (v, rest4) =>
            match skipJsonWs rest4 with
            | ',' :: rest5 => parseJsonObj f rest5 (acc ++ [(String.mk key, v)])
            | '}' :: rest5 => some (Py.dict (acc ++ [(String.mk key, v)]), rest5)
            | _ => Option.none
        | _ => Option.none
    | _ => Option.none

/-- Elements of a JSON array (after the opening bracket, at least one element). -/
def parseJsonArr : Nat → List Char → List Py → Option (Py × List Char)
  | 0, _, _ => Option.none
  | Nat.succ f, cs, acc =>
    match parseJsonVal f cs with
    | Option.none => Option.none
    | some (v, rest) =>
      match skipJsonWs rest with
      | ',' :: rest2 => parseJsonArr f rest2 (acc ++ [v])
      | ']' :: rest2 => some (Py.list (acc ++ [v]), rest2)
      | _ => Option.none

end

/-- `json.loads`: parse a complete JSON document, rejecting trailing input. -/
def jsonLoads (s : String) : Option Py :=
  match parseJsonVal (2 * s.length + 8) s.data with
  | some (v, rest) => if (skipJsonWs rest).isEmpty then some v else Option.none
  | Option.none => Option.none

/-! ### Python numeric coercion (`int(float(x))`) -/

/-- Result of Python `float(x)`: a finite value, an infinity, a NaN, or an
exception (`ValueError`/`TypeError`). -/
inductive FloatRes where
  | fin : ℚ → FloatRes
  | inf : FloatRes
  | nan : FloatRes
  | err : FloatRes
deriving DecidableEq

/-- Lowercase ASCII copy of a string (`str.lower` restricted to ASCII). -/
def asciiLower (s : String) : String :=
  String.mk (s.data.map (fun c => if 'A' ≤ c ∧ c ≤ 'Z' then Char.ofNat (c.toNat + 32) else c))

/-- `float(s)` on a string: strip whitespace, optional sign, then either an
`inf`/`nan` literal or a decimal literal `d*[.d*][e[±]d+]` with at least one
digit in the mantissa. -/
def pyFloatOfString (s : String) : FloatRes :=
  let cs := (s.data.dropWhile isPySpace).reverse.dropWhile isPySpace |>.reverse
  let (neg, cs1) := match cs with
    | '-' :: rest => (true, rest)
    | '+' :: rest => (false, rest)
    | _ => (false, cs)
  let low := asciiLower (String.mk cs1)
  if low = "inf" ∨ low = "infinity" then FloatRes.inf
  else if low = "nan" then FloatRes.nan
  else
    let (ds, rest1) := takeDigits cs1
    let (fracDs, rest2) : List Char × List Char :=
      match rest1 with
      | '.' :: r => takeDigits r
      | _ => ([], rest1)
    let hadDot : Bool := match rest1 with | '.' :: _ => true | _ => false
    if ds.isEmpty && fracDs.isEmpty then FloatRes.err
    else
      let mantissa : ℚ :=
        (digitsToNat ds : ℚ) + (digitsToNat fracDs : ℚ) / ((10 : ℚ) ^ fracDs.length)
      let restAfterFrac := if hadDot then rest2 else rest1
      match restAfterFrac with
      | [] => FloatRes.fin (if neg then -mantissa else mantissa)
      | 'e' :: r =>
        (match (match r with
                | '-' :: r2 => some (true, r2)
                | '+' :: r2 => some (false, r2)
                | _ => some (false, r)) with
         | some (eneg, r2) =>
           let (eds, r3) := takeDigits r2
           if eds.isEmpty ∨ ¬ r3.isEmpty then FloatRes.err
           else
             let scaled := if eneg then mantissa / ((10 : ℚ) ^ digitsToNat eds)
                           else mantissa * ((10 : ℚ) ^ digitsToNat eds)
             FloatRes.fin (if neg then -scaled else scaled)
         | Option.none => FloatRes.err)
      | 'E' :: r =>
        (match (match r with
                | '-' :: r2 => some (true, r2)
                | '+' :: r2 => some (false, r2)
                | _ => some (false, r)) with
         | some (eneg, r2) =>
           let (eds, r3) := takeDigits r2
           if eds.isEmpty ∨ ¬ r3.isEmpty then FloatRes.err
           else
             let scaled := if eneg then mantissa / ((10 : ℚ) ^ digitsToNat eds)
                           else mantissa * ((10 : ℚ) ^ digitsToNat eds)
             FloatRes.fin (if neg then -scaled else scaled)
         | Option.none => FloatRes.err)
      | _ => FloatRes.err

/-- `float(x)` on an arbitrary Python value. -/
def pyFloat : Py → FloatRes
  | Py.int n => FloatRes.fin (n : ℚ)
  | Py.float q => FloatRes.fin q
  | Py.bool b => FloatRes.fin (if b then 1 else 0)
  | Py.str s => pyFloatOfString s
  | Py.none => FloatRes.err
  | Py.list _ => FloatRes.err
  | Py.dict _ => FloatRes.err

/-- Truncation toward zero, as performed by Python `int()` on a float. -/
def ratTrunc (q : ℚ) : Int :=
  if 0 ≤ q then Rat.floor q else -(Rat.floor (-q))

/-! ### Python `str()` / `repr()` -/

/-- Decimal-ish rendering of a float value (approximation of Python float
repr; only exercised on non-string values, which the claims never rely on). -/
def ratRepr (q : ℚ) : String :=
  if q.den = 1 then toString q.num ++ ".0" else toString q.num ++ "/" ++ toString q.den

mutual

/-- Python `repr()` of a decoded JSON value. -/
def pyRepr : Py → String
  | Py.none => "None"
  | Py.bool true => "True"
  | Py.bool false => "False"
  | Py.int n => toString n
  | Py.float q => ratRepr q
  | Py.str s => "'" ++ s ++ "'"
  | Py.list xs => "[" ++ ", ".intercalate (pyReprList xs) ++ "]"
  | Py.dict fs => "\x7b" ++ ", ".intercalate (pyReprPairs fs) ++ "\x7d"

def pyReprList : List Py → List String
  | [] => []
  | v :: vs => pyRepr v :: pyReprList vs

def pyReprPairs : List (String × Py) → List String
  | [] => []
  | (k, v) :: vs => ("'" ++ k ++ "': " ++ pyRepr v) :: pyReprPairs vs

end

/-- Python `str()` of a decoded JSON value. -/
def pyStrFn : Py → String
  | Py.str s => s
  | v => pyRepr v

/-! ### Python `str.split()` and `' '.join` -/

/-- Split a character list on a delimiter predicate, dropping empty runs
(the accumulator holds the current run, reversed). -/
def splitRunsAux (p : Char → Bool) : List Char → List Char → List (List Char)
  | [], acc => if acc.isEmpty then [] else [acc.reverse]
  | c :: cs, acc =>
    if p c then
      if acc.isEmpty then splitRunsAux p cs [] else acc.reverse :: splitRunsAux p cs []
    else splitRunsAux p cs (c :: acc)

/-- `s.split()` with no arguments: split on whitespace runs, dropping empty
pieces. -/
def pySplitWs (s : String) : List String :=
  (splitRunsAux isPySpace s.data []).map String.mk

/-- `' '.join(ws)`. -/
def pyJoinSp : List String → String
  | [] => ""
  | [w] => w
  | w :: ws => w ++ " " ++ pyJoinSp ws

/-! ### Response normalisation (`LLMService._parse_response` /
`LLMService._extract_fallback` in `app/services/llm_service.py`) -/

/-- The normalized scoring result returned by `_parse_response` /
`_extract_fallback` (the Python dict with keys `nim`, `student_name`,
`score`, `evaluation`, `error`).  `nim` and `student_name` pass through
`str()` and are plain strings; on the strict-parse path `evaluation` is
returned unmodified and may be a non-string Python value, hence type `Py`. -/
structure PyResult where
  nim : String
  student_name : String
  score : Option Int
  evaluation : Py
  error : Bool

/-- Embedding of the score-coercion block of `_parse_response`
(`llm_service.py` lines 651-656): `score = int(float(score))` clamped into
`[score_min, score_max]`, with `ValueError`/`TypeError` producing `None`.
The outer `Option` is `none` when the block raises an uncaught exception
(`OverflowError` from `int(float('inf'))`). -/
def normalizeScore (score : Py) (score_min score_max : Int) : Option (Option Int) :=
  match score with
  | Py.none => some Option.none
  | v =>
    match pyFloat v with
    | FloatRes.fin q => some (some (max score_min (min score_max (ratTrunc q))))
    | FloatRes.nan => some Option.none
    | FloatRes.err => some Option.none
    | FloatRes.inf => Option.none

/-- Embedding of the evaluation-truncation block of `_parse_response`.
`none` models the uncaught `AttributeError` from calling `.split()` on a
truthy non-string value. -/
def normalizeEvaluation (evaluation : Py) (enable_evaluation : Bool) (max_words : Nat) :
    Option Py :=
  if ¬ enable_evaluation then some (Py.str "")
  else if pyTruthy evaluation then
    match evaluation with
    | Py.str e =>
      let words := pySplitWs e
      if words.length > max_words then
        some (Py.str (pyJoinSp (words.take max_words) ++ "..."))
      else some (Py.str e)
    | _ => Option.none
  else some evaluation

/-- The leftmost, shortest brace-delimited fragment of `text`: the match of
`re.search(r'\x7b.*?\x7d', text, re.DOTALL)`.  The match starts at the first
`'\x7b'` and ends at the first `'\x7d'` after it. -/
def upToCloseBrace : List Char → Option (List Char)
  | [] => Option.none
  | '\x7d' :: _ => some ['\x7d']
  | c :: rest => (upToCloseBrace rest).map (fun l => c :: l)

def findBracedFragment (s : String) : Option String :=
  let rec go : List Char → Option (List Char)
    | [] => Option.none
    | '\x7b' :: rest => (upToCloseBrace rest).map (fun l => '\x7b' :: l)
    | _ :: rest => go rest
  (go s.data).map String.mk

/-- The default result `_extract_fallback` starts from. -/
def fallbackBase : PyResult :=
  { nim := "TIDAK_DITEMUKAN"
    student_name := "TIDAK_DITEMUKAN"
    score := Option.none
    evaluation := Py.str "Gagal memproses respons LLM"
    error := true }

/-- The `nim` / `student_name` / `evaluation` overwrites `_extract_fallback`
performs after its score step. -/
def applyFallbackFields (data : List (String × Py)) (r1 : PyResult) : PyResult :=
  let r2 := match dictGet data "nim" with
    | some v => { r1 with nim := pyStrFn v }
    | Option.none => r1
  let r3 := match dictGet data "student_name" with
    | some v => { r2 with student_name := pyStrFn v }
    | Option.none => r2
  match dictGet data "evaluation" with
  | some v => { r3 with evaluation := Py.str (pyStrFn v) }
  | Option.none => r3

/-- Embedding of `LLMService._extract_fallback` (`llm_service.py` lines
677-709): best-effort extraction when JSON parsing fails.  An
`OverflowError` escaping the inner score coercion is caught by the outer
`except Exception: pass`, leaving the defaults in place. -/
def extractFallback (text : String) (score_min score_max : Int) : PyResult :=
  match findBracedFragment text with
  | Option.none => fallbackBase
  | some frag =>
    match jsonLoads frag with
    | Option.none => fallbackBase
    | some (Py.dict data) =>
      let afterScore : Option PyResult :=
        match dictGet data "score" with
        | Option.none => some fallbackBase
        | some v =>
          match normalizeScore v score_min score_max with
          | some (some n) => some { fallbackBase with score := some n, error := false }
          | some Option.none => some fallbackBase
          | Option.none => Option.none
      match afterScore with
      | Option.none => fallbackBase
      | some r1 => applyFallbackFields data r1
    | some _ => fallbackBase

/-- Embedding of `LLMService._parse_response` (`llm_service.py` lines
640-675).  `none` models a Python exception escaping the method (e.g.
`json.loads` succeeded with a non-dict document, so `.get` raises). -/
def parseResponse (response_text : String) (score_min score_max : Int)
    (enable_evaluation : Bool) (max_words : Nat) : Option PyResult :=
  match jsonLoads response_text with
  | Option.none => some (extractFallback response_text score_min score_max)
  | some (Py.dict data) =>
    let nim := dictGetD data "nim" (Py.str "TIDAK_DITEMUKAN")
    let student_name := dictGetD data "student_name" (Py.str "TIDAK_DITEMUKAN")
    let score := dictGetD data "score" Py.none
    let evaluation := dictGetD data "evaluation" (Py.str "")
    match normalizeScore score score_min score_max with
    | Option.none => Option.none
    | some scoreOut =>
      match normalizeEvaluation evaluation enable_evaluation max_words with
      | Option.none => Option.none
      | some evalOut =>
        some { nim := pyStrFn nim
               student_name := pyStrFn student_name
               score := scoreOut
               evaluation := evalOut
               error := false }
  | some _ => Option.none

/-! ### Configuration resolution (`LLMService._get_active_config`,
`llm_service.py` lines 124-184) -/

/-- The app-level configuration read through `app_config.get(...)`.
`Option.none` models an absent key; string fields read with a `''` default
are plain strings. -/
structure AppConfig where
  llm_provider : Option String := Option.none
  llm_model : Option String := Option.none
  gemini_api_keys : List String := []
  nvidia_api_key : String := ""
  openai_api_key : String := ""
  deepseek_api_key : String := ""
  openrouter_api_key : String := ""
  siliconflow_api_key : String := ""
  github_api_key : String := ""
  nvidia_base_url : Option String := Option.none
  openai_base_url : Option String := Option.none
  deepseek_base_url : Option String := Option.none
  openrouter_base_url : Option String := Option.none
  siliconflow_base_url : Option String := Option.none
  github_base_url : Option String := Option.none

/-- `LLMConfig.get_all()`: the persisted key-value configuration rows. -/
def dbLookup (db : List (String × String)) (k : String) : Option String :=
  (db.find? (fun p => p.1 = k)).map (·.2)

/-- Python `a or b` where `a` is `db_cfg.get(key)` (a string or `None`):
an empty (or absent) left operand falls through to `b`. -/
def pyOrDb (a : Option String) (b : String) : String :=
  match a with
  | some s => if s = "" then b else s
  | Option.none => b

/-- `DEFAULT_MODELS.get(provider, '')`. -/
def defaultModels (p : String) : String :=
  if p = "gemini" then "gemini-2.5-flash"
  else if p = "nvidia" then "moonshotai/kimi-k2.5"
  else if p = "openai" then "gpt-4.1"
  else if p = "deepseek" then "deepseek-chat"
  else if p = "openrouter" then "openai/gpt-4o-mini"
  else if p = "siliconflow" then "Qwen/Qwen2.5-72B-Instruct"
  else if p = "github" then "openai/gpt-4.1-mini"
  else ""

/-- `DEFAULT_BASE_URLS[provider]`. -/
def defaultBaseUrl (p : String) : String :=
  if p = "nvidia" then "https://integrate.api.nvidia.com/v1"
  else if p = "openai" then "https://api.openai.com/v1"
  else if p = "deepseek" then "https://api.deepseek.com/v1"
  else if p = "openrouter" then "https://openrouter.ai/api/v1"
  else if p = "siliconflow" then "https://api.siliconflow.cn/v1"
  else if p = "github" then "https://models.github.ai/inference"
  else ""

/-- The dictionary returned by `_get_active_config`.  `gemini_keys` keeps the
raw decoded JSON value; when the stored JSON is absent, empty or malformed the
service falls back to the keys captured at construction time. -/
structure ActiveConfig where
  provider : String
  model : String
  gemini_keys : Py
  nvidia_api_key : String
  nvidia_base_url : String
  openai_api_key : String
  openai_base_url : String
  deepseek_api_key : String
  deepseek_base_url : String
  openrouter_api_key : String
  openrouter_base_url : String
  siliconflow_api_key : String
  siliconflow_base_url : String
  github_api_key : String
  github_base_url : String

/-- Embedding of `LLMService._get_active_config` (DB rows → app config →
hard-wired defaults).  `initKeys` is `self._gemini_keys`, captured from
`app_config` at construction time. -/
def getActiveConfig (db : List (String × String)) (app : AppConfig)
    (initKeys : List String) : ActiveConfig :=
  let provider := pyOrDb (dbLookup db "llm_provider") (pyOrDb app.llm_provider "gemini")
  let model :=
    match dbLookup db "llm_model" with
    | some m =>
      if m ≠ "" then m
      else
        let app_provider := app.llm_provider.getD "gemini"
        match app.llm_model with
        | some am => if am ≠ "" ∧ provider = app_provider then am else defaultModels provider
        | Option.none => defaultModels provider
    | Option.none =>
      let app_provider := app.llm_provider.getD "gemini"
      match app.llm_model with
      | some am => if am ≠ "" ∧ provider = app_provider then am else defaultModels provider
      | Option.none => defaultModels provider
  let gemini_keys :=
    match dbLookup db "gemini_api_keys" with
    | some s =>
      if s ≠ "" then
        match jsonLoads s with
        | some v => v
        | Option.none => Py.list (initKeys.map Py.str)
      else Py.list (initKeys.map Py.str)
    | Option.none => Py.list (initKeys.map Py.str)
  { provider := provider
    model := model
    gemini_keys := gemini_keys
    nvidia_api_key := pyOrDb (dbLookup db "nvidia_api_key") app.nvidia_api_key
    nvidia_base_url :=
      pyOrDb (dbLookup db "nvidia_base_url") (pyOrDb app.nvidia_base_url (defaultBaseUrl "nvidia"))
    openai_api_key := pyOrDb (dbLookup db "openai_api_key") app.openai_api_key
    openai_base_url :=
      pyOrDb (dbLookup db "openai_base_url") (pyOrDb app.openai_base_url (defaultBaseUrl "openai"))
    deepseek_api_key := pyOrDb (dbLookup db "deepseek_api_key") app.deepseek_api_key
    deepseek_base_url :=
      pyOrDb (dbLookup db "deepseek_base_url")
        (pyOrDb app.deepseek_base_url (defaultBaseUrl "deepseek"))
    openrouter_api_key := pyOrDb (dbLookup db "openrouter_api_key") app.openrouter_api_key
    openrouter_base_url :=
      pyOrDb (dbLookup db "openrouter_base_url")
        (pyOrDb app.openrouter_base_url (defaultBaseUrl "openrouter"))
    siliconflow_api_key := pyOrDb (dbLookup db "siliconflow_api_key") app.siliconflow_api_key
    siliconflow_base_url :=
      pyOrDb (dbLookup db "siliconflow_base_url")
        (pyOrDb app.siliconflow_base_url (defaultBaseUrl "siliconflow"))
    github_api_key := pyOrDb (dbLookup db "github_api_key") app.github_api_key
    github_base_url :=
      pyOrDb (dbLookup db "github_base_url")
        (pyOrDb app.github_base_url (defaultBaseUrl "github")) }

/-! ### Gemini credential rotator (`LLMService._get_next_gemini_key`,
`llm_service.py` lines 314-336) -/

/-- The mutable rotator state: the configured key list, the cycle position
(`cycle(enumerate(keys))` yields element `pos % len(keys)` next), the set of
rate-limited key indices, the per-key client cache (only the cached keys
matter here) and whether `_key_cycle` is non-`None`. -/
structure RotState where
  keys : List String
  pos : Nat
  rateLimited : Finset Nat
  clients : List String
  hasCycle : Bool

/-- Constructor-time state (`LLMService.__init__`): the cycle exists only if
the initial key list is non-empty. -/
def initRotState (appKeys : List String) : RotState :=
  { keys := appKeys, pos := 0, rateLimited := ∅, clients := [], hasCycle := ¬ appKeys.isEmpty }

/-- The bounded skip loop of `_get_next_gemini_key`: at most `fuel` skip
attempts; returns the selected `(index, key)` (or `none` on fall-through)
together with the final cycle position. -/
def rotLoop (keys : List String) (rl : Finset Nat) : Nat → Nat → Option (Nat × String) × Nat
  | pos, 0 => (Option.none, pos)
  | pos, Nat.succ fuel =>
    match keys.get? (pos % keys.length) with
    | Option.none => (Option.none, pos)
    | some key =>
      if pos % keys.length ∈ rl ∧ rl.card < keys.length then rotLoop keys rl (pos + 1) fuel
      else (some (pos % keys.length, key), pos + 1)

/-- Embedding of `LLMService._get_next_gemini_key`.  The first component is
the returned `(index, key)` pair (`none` models a raised exception:
`RuntimeError` when no cycle exists, `StopIteration` from `next` on an empty
cycle); the second is the state after the call. -/
def getNextGeminiKey (keys : List String) (st : RotState) :
    Option (Nat × String) × RotState :=
  let st1 : RotState :=
    if keys = st.keys then st
    else { keys := keys, pos := 0, rateLimited := ∅, clients := [], hasCycle := true }
  if ¬ st1.hasCycle then (Option.none, st1)
  else
    match rotLoop st1.keys st1.rateLimited st1.pos (2 * st1.keys.length) with
    | (some r, posAfter) => (some r, { st1 with pos := posAfter })
    | (Option.none, posAfter) =>
      match st1.keys.get? (posAfter % st1.keys.length) with
      | some key =>
        (some (posAfter % st1.keys.length, key),
         { st1 with rateLimited := ∅, pos := posAfter + 1 })
      | Option.none => (Option.none, { st1 with rateLimited := ∅, pos := posAfter })

/-! ### Identity fallback resolver -/

/-- The sentinel the LLM is instructed to emit when it cannot find the
student id or name. -/
def nimSentinel : String := "TIDAK_DITEMUKAN"

/-- Characters on which filename tokens are split (common delimiters). -/
def isTokenDelim (c : Char) : Bool :=
  c = '_' ∨ c = '-' ∨ c = '.'

/-- Modelled from the spec: filename tokenisation of the Identity Fallback
Resolver (§4.5), which is invoked by `score_report` but whose implementation
is not present under `src/` (the `score_report` in `src/` lacks the
`source_filename` parameter its callers and tests pass). -/
def tokenizeFilename (s : String) : List String :=
  (splitRunsAux isTokenDelim s.data []).map String.mk

/-- Modelled from the spec: the institution student-ID pattern of §4.5 — a
letter prefix followed by a fixed-length digit run (length 9, as in the
repository's test NIM `L200240020`).  A purely numeric token has no letter
prefix and never matches, which is how date/timestamp-like tokens are
rejected. -/
def idDigitRun : Nat := 9

def isIdToken (t : String) : Bool :=
  let letters := t.data.takeWhile Char.isAlpha
  let rest := t.data.dropWhile Char.isAlpha
  ¬ letters.isEmpty ∧ rest.length = idDigitRun ∧ rest.all Char.isDigit

/-- Capitalise one word (first letter upper, rest lower). -/
def capWord (w : String) : String :=
  match w.data with
  | [] => ""
  | c :: cs => String.mk (c.toUpper :: cs.map Char.toLower)

/-- Modelled from the spec: name normalisation (underscore/space
normalisation and capitalisation, §4.5). -/
def normalizeName (t : String) : String :=
  pyJoinSp ((pySplitWs t).map capWord)

/-- First index (from `i`) of a token satisfying `p`. -/
def findTokenIdx (p : String → Bool) : List String → Nat → Option Nat
  | [], _ => Option.none
  | t :: ts, i => if p t then some i else findTokenIdx p ts (i + 1)

/-- A token plausible as a human name: letters and spaces only, with at
least one letter. -/
def isNameToken (t : String) : Bool :=
  (¬ t.isEmpty) ∧ t.data.all (fun c => c.isAlpha ∨ c = ' ') ∧ t.data.any Char.isAlpha

/-- Modelled from the spec: recover the student id from the first token
matching the student-ID pattern, only when the id is still the sentinel
(§4.5: fallback never overwrites a non-sentinel value). -/
def recoverNim (tokens : List String) (idIdx : Option Nat) (r : PyResult) : PyResult :=
  if r.nim = nimSentinel then
    match idIdx with
    | some i =>
      match tokens.get? i with
      | some t => { r with nim := t }
      | Option.none => r
    | Option.none => r
  else r

/-- Modelled from the spec: recover a plausible human name from the tokens
adjacent to the id token, only when the name is still the sentinel (§4.5). -/
def recoverName (tokens : List String) (idIdx : Option Nat) (r1 : PyResult) : PyResult :=
  if r1.student_name = nimSentinel then
    match idIdx with
    | some i =>
      match (tokens.get? (i + 1)).filter (fun t => isNameToken t) with
      | some t => { r1 with student_name := normalizeName t }
      | Option.none =>
        if i = 0 then r1
        else
          match (tokens.get? (i - 1)).filter (fun t => isNameToken t) with
          | some t => { r1 with student_name := normalizeName t }
          | Option.none => r1
    | Option.none => r1
  else r1

/-- Modelled from the spec: the Identity Fallback Resolver's
`resolve(result, source_filename)` (§4.5).  Returns the result unmodified
when both identity fields are already non-sentinel; otherwise recovers the
id from a token matching the student-ID pattern and a plausible name from
the tokens adjacent to it, never overwriting a non-sentinel field. -/
def resolveIdentity (r : PyResult) (source_filename : String) : PyResult :=
  if r.nim ≠ nimSentinel ∧ r.student_name ≠ nimSentinel then r
  else
    let tokens := tokenizeFilename source_filename
    let idIdx := findTokenIdx isIdToken tokens 0
    recoverName tokens idIdx (recoverNim tokens idIdx r)

/-! ### Job orchestration loop (`ScoringService._run_scoring`,
`scoring_service.py` lines 252-335) -/

/-- The result dictionary a per-student worker unit returns
(`_process_single_file`), before the orchestrator attaches the filename. -/
structure SRes where
  nim : String
  student_name : String
  score : Option Int
  evaluation : String
  error : Bool

/-- A per-student result after the `as_completed` loop attached the
filename.  A worker exception `e` is converted to an error result with
evaluation `'Error: ' + str(e)`. -/
structure TaskResult where
  filename : String
  nim : String
  student_name : String
  score : Option Int
  evaluation : String
  error : Bool

def processUnit (fn : String) (o : Except String SRes) : TaskResult :=
  match o with
  | Except.ok r => ⟨fn, r.nim, r.student_name, r.score, r.evaluation, r.error⟩
  | Except.error e => ⟨fn, "ERROR", "ERROR", Option.none, "Error: " ++ e, true⟩

/-- The persisted StudentTask outcome written by `_update_job_result_in_db`:
status `'error'` with the evaluation as error message when the result is an
error, else `'completed'`. -/
structure StudentTaskRec where
  filename : String
  status : String
  error_message : Option String

def taskRecOf (t : TaskResult) : StudentTaskRec :=
  { filename := t.filename
    status := if t.error then "error" else "completed"
    error_message := if t.error then some t.evaluation else Option.none }

/-- Job-level outcome of `_run_scoring` once every unit completed. -/
structure JobFinal where
  status : String
  status_message : String
  tasks : List StudentTaskRec
  results : List TaskResult
  processed : Nat

/-- Embedding of the `as_completed` loop and job completion of
`_run_scoring`: each unit (listed in completion order) either produced a
result or raised; exceptions become `error` outcomes; afterwards the job is
marked `completed` with the `success_count/total` message. -/
def runScoringLoop (units : List (String × Except String SRes)) : JobFinal :=
  let results := units.map (fun u => processUnit u.1 u.2)
  let success := (results.filter (fun r => ¬ r.error)).length
  { status := "completed"
    status_message :=
      "Berhasil menilai " ++ toString success ++ "/" ++ toString units.length ++ " laporan"
    tasks := results.map taskRecOf
    results := results
    processed := units.length }

/-! ### Report generation (`ScoringService._generate_csv`,
`scoring_service.py` lines 617-668) -/

/-- The fields of one result dictionary that `_generate_csv` reads. -/
structure RowInput where
  filename : String
  nim : String
  student_name : String
  score : Option Int
  ocr_status : Option String
  ocr_detail : Option String
  evaluation : String

/-- Python `a or b` for strings. -/
def pyOrStr (a b : String) : String :=
  if a = "" then b else a

def csvDisplayIdent (s : String) : String :=
  if s = "" ∨ s = "TIDAK_DITEMUKAN" ∨ s = "ERROR" then "[Tidak Terbaca]" else s

def csvScoreCell : Option Int → String
  | some n => toString n
  | Option.none => ""

/-- One data row of the report (ordinal, filename, id, name, score, OCR
status, evaluation). -/
def csvRow (idx : Nat) (r : RowInput) : List String :=
  [toString idx, r.filename, csvDisplayIdent r.nim, csvDisplayIdent r.student_name,
   csvScoreCell r.score,
   pyOrStr (r.ocr_status.getD "") "Tidak Diketahui" ++ " - " ++
     pyOrStr (r.ocr_detail.getD "") "Status OCR tidak tersedia.",
   r.evaluation]

def csvHeader : List String :=
  ["No", "Filename", "NIM", "Nama", "Skor", "Status OCR Docling", "Evaluasi"]

/-- `sorted(results, key=lambda x: x.get('filename', ''))` (a stable sort by
filename). -/
def sortResults (rs : List RowInput) : List RowInput :=
  rs.mergeSort (fun a b => decide (a.filename ≤ b.filename))

/-- The full row list of the generated CSV. -/
def generateCsvRows (rs : List RowInput) : List (List String) :=
  csvHeader :: (sortResults rs).enum.map (fun p => csvRow (p.1 + 1) p.2)

/-! ## Lemmas about whitespace splitting and joining -/

theorem splitRunsAux_no_delim (p : Char → Bool) :
    ∀ (l acc : List Char), (∀ c ∈ l, p c = false) → acc.reverse ++ l ≠ [] →
      splitRunsAux p l acc = [acc.reverse ++ l] := by
  intro l
  induction l with
  | nil =>
    intro acc _ hne
    have hacc : acc ≠ [] := by
      intro h
      subst h
      simp at hne
    show (if acc.isEmpty then [] else [acc.reverse]) = [acc.reverse ++ []]
    rw [if_neg (by simpa [List.isEmpty_iff] using hacc)]
    simp
  | cons c cs ih =>
    intro acc hl _
    have hc : p c = false := hl c (List.mem_cons_self c cs)
    have hcs : ∀ d ∈ cs, p d = false := fun d hd => hl d (List.mem_cons_of_mem c hd)
    have hne2 : (c :: acc).reverse ++ cs ≠ [] := by simp
    have hstep : splitRunsAux p (c :: cs) acc = splitRunsAux p cs (c :: acc) := by
      show (if p c then _ else splitRunsAux p cs (c :: acc)) = _
      rw [if_neg (by simp [hc])]
    rw [hstep, ih (c :: acc) hcs hne2]
    simp

theorem splitRunsAux_delim (p : Char → Bool) (d : Char) (hd : p d = true) :
    ∀ (l acc rest : List Char), (∀ c ∈ l, p c = false) → acc.reverse ++ l ≠ [] →
      splitRunsAux p (l ++ d :: rest) acc = (acc.reverse ++ l) :: splitRunsAux p rest [] := by
  intro l
  induction l with
  | nil =>
    intro acc rest _ hne
    have hacc : acc ≠ [] := by
      intro h
      subst h
      simp at hne
    show (if p d then (if acc.isEmpty then splitRunsAux p rest []
        else acc.reverse :: splitRunsAux p rest []) else _) = (acc.reverse ++ []) :: _
    rw [if_pos hd, if_neg (by simpa [List.isEmpty_iff] using hacc)]
    simp
  | cons c cs ih =>
    intro acc rest hl _
    have hc : p c = false := hl c (List.mem_cons_self c cs)
    have hcs : ∀ e ∈ cs, p e = false := fun e he => hl e (List.mem_cons_of_mem c he)
    have hne2 : (c :: acc).reverse ++ cs ≠ [] := by simp
    have hstep : splitRunsAux p ((c :: cs) ++ d :: rest) acc
        = splitRunsAux p (cs ++ d :: rest) (c :: acc) := by
      show (if p c then _ else splitRunsAux p (cs ++ d :: rest) (c :: acc)) = _
      rw [if_neg (by simp [hc])]
    rw [hstep, ih (c :: acc) rest hcs hne2]
    simp

theorem splitRunsAux_sound (p : Char → Bool) :
    ∀ (l acc : List Char), (∀ c ∈ acc, p c = false) →
      ∀ w ∈ splitRunsAux p l acc, w ≠ [] ∧ ∀ c ∈ w, p c = false := by
  intro l
  induction l with
  | nil =>
    intro acc hacc w hw
    by_cases h : acc.isEmpty
    · simp [splitRunsAux, h] at hw
    · rw [show splitRunsAux p [] acc = (if acc.isEmpty then [] else [acc.reverse]) from rfl,
        if_neg h] at hw
      simp at hw
      subst hw
      have hne : acc ≠ [] := fun hh => h (by simp [hh])
      refine ⟨by simpa using hne, ?_⟩
      intro c hc
      exact hacc c (List.mem_reverse.mp hc)
  | cons c cs ih =>
    intro acc hacc w hw
    rw [show splitRunsAux p (c :: cs) acc = (if p c then (if acc.isEmpty
      then splitRunsAux p cs [] else acc.reverse :: splitRunsAux p cs [])
      else splitRunsAux p cs (c :: acc)) from rfl] at hw
    by_cases hc : p c = true
    · rw [if_pos hc] at hw
      by_cases h : acc.isEmpty
      · rw [if_pos h] at hw
        exact ih [] (by simp) w hw
      · rw [if_neg h] at hw
        rcases List.mem_cons.mp hw with hw | hw
        · subst hw
          have hne : acc ≠ [] := fun hh => h (by simp [hh])
          refine ⟨by simpa using hne, ?_⟩
          intro e he
          exact hacc e (List.mem_reverse.mp he)
        · exact ih [] (by simp) w hw
    · have hc' : p c = false := by simpa using hc
      rw [if_neg (by simp [hc'])] at hw
      refine ih (c :: acc) ?_ w hw
      intro e he
      rcases List.mem_cons.mp he with he | he
      · simpa [he] using hc'
      · exact hacc e he

/-- Characters of `' '.join`. -/
theorem pyJoinSp_data (w : String) (ws : List String) (h : ws ≠ []) :
    (pyJoinSp (w :: ws)).data = w.data ++ ' ' :: (pyJoinSp ws).data := by
  match ws, h with
  | w2 :: ws2, _ =>
    show (w ++ " " ++ pyJoinSp (w2 :: ws2)).data = _
    simp [String.data_append]

/-- Splitting the space-joined list of non-empty, whitespace-free words (with
a trailing ellipsis) recovers exactly one piece per word. -/
theorem pySplit_join_ellipsis_length :
    ∀ ws : List String, ws ≠ [] →
      (∀ w ∈ ws, w.data ≠ [] ∧ ∀ c ∈ w.data, isPySpace c = false) →
      (pySplitWs (pyJoinSp ws ++ "...")).length = ws.length := by
  intro ws
  induction ws with
  | nil => intro h; exact absurd rfl h
  | cons w ws ih =>
    intro _ hw
    obtain ⟨hwne, hwns⟩ := hw w (List.mem_cons_self w ws)
    by_cases hws : ws = []
    · subst hws
      have hdata : (pyJoinSp [w] ++ "...").data = w.data ++ ['.', '.', '.'] := by
        show (w ++ "...").data = _
        simp [String.data_append]
      have hns : ∀ c ∈ w.data ++ ['.', '.', '.'], isPySpace c = false := by
        intro c hc
        rcases List.mem_append.mp hc with hc | hc
        · exact hwns c hc
        · simp at hc
          subst hc
          rfl
      unfold pySplitWs
      rw [hdata, splitRunsAux_no_delim isPySpace (w.data ++ ['.', '.', '.']) [] hns (by simp)]
      simp
    · have hdata : (pyJoinSp (w :: ws) ++ "...").data
        = w.data ++ ' ' :: (pyJoinSp ws ++ "...").data := by
        have h1 : (pyJoinSp (w :: ws) ++ "...").data
            = (pyJoinSp (w :: ws)).data ++ "...".data := String.data_append _ _
        rw [h1, pyJoinSp_data w ws hws]
        simp [String.data_append]
      unfold pySplitWs
      rw [hdata, splitRunsAux_delim isPySpace ' ' (by decide) w.data []
        (pyJoinSp ws ++ "...").data hwns (by simpa using hwne)]
      have := ih hws (fun v hv => hw v (List.mem_cons_of_mem w hv))
      unfold pySplitWs at this
      simpa using this

/-- Every piece of `s.split()` is a non-empty, whitespace-free string. -/
theorem pySplitWs_sound (s : String) :
    ∀ w ∈ pySplitWs s, w.data ≠ [] ∧ ∀ c ∈ w.data, isPySpace c = false := by
  intro w hw
  unfold pySplitWs at hw
  rcases List.mem_map.mp hw with ⟨l, hl, hwl⟩
  obtain ⟨h1, h2⟩ := splitRunsAux_sound isPySpace s.data [] (by simp) l hl
  subst hwl
  exact ⟨h1, h2⟩

/-! ## Claim theorems -/

/-- C6: For every evaluation string with word count `w` and every
`max_words` limit, when evaluation is enabled, the normalized evaluation is
the first `max_words` words followed by the ellipsis marker `"..."` when
`w > max_words` (and, for a positive limit, re-splitting the output yields
exactly `max_words` words), and is unchanged when `w ≤ max_words`. -/
theorem evaluation_truncation (text : String) (score_min score_max : Int)
    (max_words : Nat) (data : List (String × Py)) (e : String) (r : PyResult)
    (hparse : jsonLoads text = some (Py.dict data))
    (heval : dictGetD data "evaluation" (Py.str "") = Py.str e)
    (hr : parseResponse text score_min score_max true max_words = some r) :
    ((pySplitWs e).length ≤ max_words → r.evaluation = Py.str e) ∧
    ((pySplitWs e).length > max_words →
      r.evaluation = Py.str (pyJoinSp ((pySplitWs e).take max_words) ++ "...") ∧
      ((pySplitWs e).take max_words).length = max_words ∧
      (1 ≤ max_words →
        (pySplitWs (pyJoinSp ((pySplitWs e).take max_words) ++ "...")).length = max_words)) := by
  unfold parseResponse at hr
  rw [hparse] at hr
  simp only at hr
  rw [heval] at hr
  rcases hsc : normalizeScore (dictGetD data "score" Py.none) score_min score_max with _ | scoreOut
  · rw [hsc] at hr
    exact absurd hr (by simp)
  rw [hsc] at hr
  simp only [normalizeEvaluation] at hr
  constructor
  · intro hle
    by_cases he : e = ""
    · subst he
      simp [pyTruthy] at hr
      rw [← hr]
    · have htr : pyTruthy (Py.str e) = true := by simp [pyTruthy, he]
      rw [if_neg (by simp), if_pos htr] at hr
      rw [if_neg (by omega)] at hr
      simp at hr
      rw [← hr]
  · intro hgt
    by_cases he : e = ""
    · subst he
      simp [pySplitWs, splitRunsAux] at hgt
    · have htr : pyTruthy (Py.str e) = true := by simp [pyTruthy, he]
      rw [if_neg (by simp), if_pos htr] at hr
      rw [if_pos (by omega)] at hr
      simp at hr
      have hlen : ((pySplitWs e).take max_words).length = max_words := by
        rw [List.length_take]
        omega
      refine ⟨by rw [← hr], hlen, ?_⟩
      intro hpos
      have hne : (pySplitWs e).take max_words ≠ [] := by
        intro hnil
        rw [hnil] at hlen
        simp at hlen
        omega
      have hmain := pySplit_join_ellipsis_length ((pySplitWs e).take max_words) hne
        (fun w hw => pySplitWs_sound e w (List.mem_of_mem_take hw))
      rw [hmain]
      exact hlen

/-- Witness for C6 at a concrete input: `"a bb c"` truncated to two words. -/
theorem evaluation_truncation_witness :
    ((pySplitWs "a bb c").length ≤ 2 →
      (⟨"TIDAK_DITEMUKAN", "TIDAK_DITEMUKAN", Option.none, Py.str "a bb...", false⟩ :
        PyResult).evaluation = Py.str "a bb c") ∧
    ((pySplitWs "a bb c").length > 2 →
      (⟨"TIDAK_DITEMUKAN", "TIDAK_DITEMUKAN", Option.none, Py.str "a bb...", false⟩ :
        PyResult).evaluation = Py.str (pyJoinSp ((pySplitWs "a bb c").take 2) ++ "...") ∧
      ((pySplitWs "a bb c").take 2).length = 2 ∧
      (1 ≤ 2 → (pySplitWs (pyJoinSp ((pySplitWs "a bb c").take 2) ++ "...")).length = 2)) :=
  evaluation_truncation "\x7b\"evaluation\": \"a bb c\"\x7d" 40 100 2
    [("evaluation", Py.str "a bb c")] "a bb c"
    ⟨"TIDAK_DITEMUKAN", "TIDAK_DITEMUKAN", Option.none, Py.str "a bb...", false⟩
    rfl rfl rfl

/-- The identity/evaluation overwrites do not touch the `error` flag or the
score. -/
theorem applyFallbackFields_error_score (data : List (String × Py)) (r : PyResult) :
    (applyFallbackFields data r).error = r.error ∧
    (applyFallbackFields data r).score = r.score := by
  unfold applyFallbackFields
  cases dictGet data "nim" <;> cases dictGet data "student_name" <;>
    cases dictGet data "evaluation" <;> exact ⟨rfl, rfl⟩

/-- C5 counterexample: on the non-JSON input
`junk {"nim": "L123", "evaluation": "hi"}` the fallback recovers no score, so
`error_flag` is `true`, yet the identity field is **not** the sentinel and the
evaluation is **not** the fixed failure message — the fragment's fields
overwrite the defaults, contradicting the claim's "otherwise" clause. -/
theorem fallback_counterexample :
    jsonLoads "junk \x7b\"nim\": \"L123\", \"evaluation\": \"hi\"\x7d" = Option.none ∧
    (extractFallback "junk \x7b\"nim\": \"L123\", \"evaluation\": \"hi\"\x7d" 40 100).error
      = true ∧
    (extractFallback "junk \x7b\"nim\": \"L123\", \"evaluation\": \"hi\"\x7d" 40 100).nim
      = "L123" ∧
    (extractFallback "junk \x7b\"nim\": \"L123\", \"evaluation\": \"hi\"\x7d" 40 100).evaluation
      = Py.str "hi" :=
  ⟨rfl, rfl, rfl, rfl⟩

/-- C5 (amended): the fallback scans the *first, shortest* brace-delimited
fragment (the non-greedy regex match), returns `error_flag = false` iff a
usable numeric score was recovered (equivalently, iff the recovered score is
non-null), and on the braceless input `"score: 85 not json"` returns the
sentinel identity fields with the fixed failure message. -/
theorem fallback_error_iff_score (t : String) (score_min score_max : Int) :
    ((extractFallback t score_min score_max).error = false ↔
      (extractFallback t score_min score_max).score ≠ Option.none) ∧
    extractFallback "score: 85 not json" score_min score_max =
      ⟨"TIDAK_DITEMUKAN", "TIDAK_DITEMUKAN", Option.none,
        Py.str "Gagal memproses respons LLM", true⟩ := by
  constructor
  · unfold extractFallback
    cases hf : findBracedFragment t with
    | none => simp [fallbackBase]
    | some frag =>
      cases hj : jsonLoads frag with
      | none => simp [hj, fallbackBase]
      | some v =>
        cases v with
        | dict data =>
          simp only [hj]
          cases hs : dictGet data "score" with
          | none =>
            simp only [hs]
            obtain ⟨he, hsc⟩ := applyFallbackFields_error_score data fallbackBase
            rw [he, hsc]
            simp [fallbackBase]
          | some sv =>
            simp only [hs]
            cases hn : normalizeScore sv score_min score_max with
            | none => simp [hn, fallbackBase]
            | some so =>
              cases so with
              | none =>
                simp only [hn]
                obtain ⟨he, hsc⟩ := applyFallbackFields_error_score data fallbackBase
                rw [he, hsc]
                simp [fallbackBase]
              | some n =>
                simp only [hn]
                obtain ⟨he, hsc⟩ :=
                  applyFallbackFields_error_score data
                    { fallbackBase with score := some n, error := false }
                rw [he, hsc]
                simp
        | none => simp [hj, fallbackBase]
        | bool b => simp [hj, fallbackBase]
        | int n => simp [hj, fallbackBase]
        | float q => simp [hj, fallbackBase]
        | str s => simp [hj, fallbackBase]
        | list xs => simp [hj, fallbackBase]
  · rfl

/-- C1: the repository's own test
(`test_db_empty_provider_key_overrides_env_key`) requires that an explicitly
stored empty provider key is returned as-is; the `or`-chaining in
`_get_active_config` instead substitutes the app-config/environment value. -/
theorem config_empty_stored_key_falls_back :
    (getActiveConfig [("openai_api_key", "")]
      { openai_api_key := "env-key-should-not-win" } []).openai_api_key
      = "env-key-should-not-win" ∧
    (getActiveConfig [("openai_api_key", "")]
      { openai_api_key := "env-key-should-not-win" } []).openai_api_key ≠ "" :=
  ⟨rfl, by decide⟩

/-! ## Rotator theorems -/

/-- C2 counterexample: with a single configured key that is flagged
rate-limited (so *every* credential is flagged), the call returns a
credential but the rate-limited set is **not** cleared — the skip condition
`len(rate_limited) < len(keys)` is already false on the first iteration, so
the clearing branch after the loop is never reached. -/
theorem rotator_exhaustion_counterexample :
    (getNextGeminiKey ["a"] ⟨["a"], 0, {0}, [], true⟩).1 = some (0, "a") ∧
    (getNextGeminiKey ["a"] ⟨["a"], 0, {0}, [], true⟩).2.rateLimited ≠ (∅ : Finset Nat) := by
  constructor
  · rfl
  · intro h
    have h0 : (0 : Nat) ∈ (getNextGeminiKey ["a"] ⟨["a"], 0, {0}, [], true⟩).2.rateLimited :=
      by decide
    rw [h] at h0
    exact absurd h0 (Finset.not_mem_empty 0)

/-- C2 (amended — rotator liveness without flag clearing): from any state
whose `k ≥ 1` keys are all flagged rate-limited, the next call (with the
same key list) terminates and returns the next credential of the cycle, and
leaves the rate-limited set unchanged (flags are cleared individually on a
later successful use of a key, not here). -/
theorem rotator_liveness (st : RotState)
    (h1 : st.hasCycle = true)
    (h2 : st.rateLimited = Finset.range st.keys.length)
    (h3 : 1 ≤ st.keys.length) :
    ∃ key, st.keys.get? (st.pos % st.keys.length) = some key ∧
      getNextGeminiKey st.keys st =
        (some (st.pos % st.keys.length, key), { st with pos := st.pos + 1 }) := by
  have hmod : st.pos % st.keys.length < st.keys.length := Nat.mod_lt _ (by omega)
  have hkey : st.keys.get? (st.pos % st.keys.length)
      = some (st.keys.get ⟨st.pos % st.keys.length, hmod⟩) := List.get?_eq_get hmod
  refine ⟨st.keys.get ⟨st.pos % st.keys.length, hmod⟩, hkey, ?_⟩
  obtain ⟨f, hf⟩ : ∃ f, 2 * st.keys.length = f + 1 := ⟨2 * st.keys.length - 1, by omega⟩
  have hloop : rotLoop st.keys st.rateLimited st.pos (2 * st.keys.length)
      = (some (st.pos % st.keys.length, st.keys.get ⟨st.pos % st.keys.length, hmod⟩),
         st.pos + 1) := by
    rw [hf]
    unfold rotLoop
    rw [hkey]
    show (if st.pos % st.keys.length ∈ st.rateLimited ∧
        st.rateLimited.card < st.keys.length then
        rotLoop st.keys st.rateLimited (st.pos + 1) f
      else (some (st.pos % st.keys.length,
        st.keys.get ⟨st.pos % st.keys.length, hmod⟩), st.pos + 1)) = _
    rw [if_neg ?_]
    intro hcond
    rw [h2, Finset.card_range] at hcond
    omega
  unfold getNextGeminiKey
  rw [if_pos rfl]
  rw [if_neg (by simp [h1])]
  rw [hloop]

/-- Witness for C2 (amended): two keys, both flagged. -/
theorem rotator_liveness_witness :
    ∃ key, (["a", "b"] : List String).get? (3 % (["a", "b"] : List String).length)
        = some key ∧
      getNextGeminiKey ["a", "b"] ⟨["a", "b"], 3, Finset.range 2, [], true⟩ =
        (some (3 % (["a", "b"] : List String).length, key),
         { (⟨["a", "b"], 3, Finset.range 2, [], true⟩ : RotState) with pos := 3 + 1 }) :=
  rotator_liveness ⟨["a", "b"], 3, Finset.range 2, [], true⟩ rfl rfl (by decide)

/-- Every credential the skip loop returns indexes the configured key list. -/
theorem rotLoop_sound (keys : List String) (rl : Finset Nat) :
    ∀ (fuel pos : Nat) (idx : Nat) (key : String),
      (rotLoop keys rl pos fuel).1 = some (idx, key) →
      idx < keys.length ∧ keys.get? idx = some key := by
  intro fuel
  induction fuel with
  | zero =>
    intro pos idx key h
    exact absurd h (by simp [rotLoop])
  | succ f ih =>
    intro pos idx key h
    unfold rotLoop at h
    split at h
    · simp at h
    · next k hk =>
      split at h
      · exact ih (pos + 1) idx key h
      · simp at h
        obtain ⟨h1, h2⟩ := h
        subst h1
        subst h2
        obtain ⟨hlt, _⟩ := List.get?_eq_some.mp hk
        exact ⟨hlt, hk⟩

/-- C10: the key-selection operation keeps the rotation state aligned with
the key list it is called with: on a changed list it rebuilds the cycle,
clearing the rate-limited set and the cached clients; the returned
`(index, key)` pair always indexes the configured list; and every
rate-limited flag refers to an index of that list. -/
theorem rotator_tracks_keys (keys : List String) (st : RotState)
    (hinv : ∀ i ∈ st.rateLimited, i < st.keys.length) :
    (getNextGeminiKey keys st).2.keys = keys ∧
    (∀ i ∈ (getNextGeminiKey keys st).2.rateLimited, i < keys.length) ∧
    (∀ idx key, (getNextGeminiKey keys st).1 = some (idx, key) →
      idx < keys.length ∧ keys.get? idx = some key) ∧
    (keys ≠ st.keys →
      (getNextGeminiKey keys st).2.rateLimited = (∅ : Finset Nat) ∧
      (getNextGeminiKey keys st).2.clients = []) := by
  have main : ∀ (res : Option (Nat × String)) (st2 : RotState),
      getNextGeminiKey keys st = (res, st2) →
      st2.keys = keys ∧
      (∀ i ∈ st2.rateLimited, i < keys.length) ∧
      (∀ idx key, res = some (idx, key) → idx < keys.length ∧ keys.get? idx = some key) ∧
      (keys ≠ st.keys → st2.rateLimited = (∅ : Finset Nat) ∧ st2.clients = []) := by
    intro res st2 h
    unfold getNextGeminiKey at h
    by_cases hk : keys = st.keys
    · rw [if_pos hk] at h
      simp only [] at h
      split at h
      · next hc =>
        injection h with h1 h2
        subst h1
        subst h2
        refine ⟨hk.symm, by rw [hk]; exact hinv, ?_, fun hne => absurd hk hne⟩
        intro idx key hres
        exact absurd hres (by simp)
      · split at h
        · next r posAfter heq =>
          injection h with h1 h2
          subst h1
          subst h2
          refine ⟨hk.symm, by rw [hk]; exact hinv, ?_, fun hne => absurd hk hne⟩
          intro idx key hres
          injection hres with hr
          subst hr
          rw [hk]
          exact rotLoop_sound st.keys st.rateLimited _ _ idx key (by rw [heq])
        · next posAfter heq =>
          split at h
          · next key2 hg =>
            injection h with h1 h2
            subst h1
            subst h2
            refine ⟨hk.symm, by simp, ?_, fun hne => absurd hk hne⟩
            intro idx key hres
            injection hres with hres2
            injection hres2 with hi hkk
            subst hi
            subst hkk
            obtain ⟨hlt, _⟩ := List.get?_eq_some.mp hg
            rw [hk]
            exact ⟨hlt, hk ▸ hg⟩
          · next hg =>
            injection h with h1 h2
            subst h1
            subst h2
            refine ⟨hk.symm, by simp, ?_, fun hne => absurd hk hne⟩
            intro idx key hres
            exact absurd hres (by simp)
    · rw [if_neg hk] at h
      simp only [] at h
      split at h
      · next hc => exact absurd trivial hc
      · split at h
        · next r posAfter heq =>
          injection h with h1 h2
          subst h1
          subst h2
          refine ⟨rfl, by simp, ?_, fun _ => ⟨rfl, rfl⟩⟩
          intro idx key hres
          injection hres with hr
          subst hr
          exact rotLoop_sound keys ∅ _ _ idx key (by rw [heq])
        · next posAfter heq =>
          split at h
          · next key2 hg =>
            injection h with h1 h2
            subst h1
            subst h2
            refine ⟨rfl, by simp, ?_, fun _ => ⟨rfl, rfl⟩⟩
            intro idx key hres
            injection hres with hres2
            injection hres2 with hi hkk
            subst hi
            subst hkk
            obtain ⟨hlt, _⟩ := List.get?_eq_some.mp hg
            exact ⟨hlt, hg⟩
          · next hg =>
            injection h with h1 h2
            subst h1
            subst h2
            refine ⟨rfl, by simp, ?_, fun _ => ⟨rfl, rfl⟩⟩
            intro idx key hres
            exact absurd hres (by simp)
  exact main (getNextGeminiKey keys st).1 (getNextGeminiKey keys st).2 rfl

/-- Witness for C10: calling with a changed key list rebuilds and clears. -/
theorem rotator_tracks_keys_witness :
    ((getNextGeminiKey ["x", "y"] ⟨["a"], 5, {0}, ["a"], true⟩).2.keys = ["x", "y"] ∧
    (∀ i ∈ (getNextGeminiKey ["x", "y"] ⟨["a"], 5, {0}, ["a"], true⟩).2.rateLimited,
      i < (["x", "y"] : List String).length) ∧
    (∀ idx key, (getNextGeminiKey ["x", "y"] ⟨["a"], 5, {0}, ["a"], true⟩).1
        = some (idx, key) →
      idx < (["x", "y"] : List String).length ∧
        (["x", "y"] : List String).get? idx = some key) ∧
    (["x", "y"] ≠ (⟨["a"], 5, {0}, ["a"], true⟩ : RotState).keys →
      (getNextGeminiKey ["x", "y"] ⟨["a"], 5, {0}, ["a"], true⟩).2.rateLimited
        = (∅ : Finset Nat) ∧
      (getNextGeminiKey ["x", "y"] ⟨["a"], 5, {0}, ["a"], true⟩).2.clients = [])) :=
  rotator_tracks_keys ["x", "y"] ⟨["a"], 5, {0}, ["a"], true⟩ (by decide)

/-! ## Identity fallback theorems -/

theorem findTokenIdx_le (p : String → Bool) :
    ∀ (l : List String) (i j : Nat), findTokenIdx p l i = some j → i ≤ j := by
  intro l
  induction l with
  | nil =>
    intro i j h
    exact absurd h (by simp [findTokenIdx])
  | cons t ts ih =>
    intro i j h
    unfold findTokenIdx at h
    by_cases hp : p t = true
    · rw [if_pos hp] at h
      injection h with h1
      omega
    · rw [if_neg hp] at h
      have := ih (i + 1) j h
      omega

theorem findTokenIdx_sound (p : String → Bool) :
    ∀ (l : List String) (i j : Nat), findTokenIdx p l i = some j →
      ∃ t, l.get? (j - i) = some t ∧ p t = true := by
  intro l
  induction l with
  | nil =>
    intro i j h
    exact absurd h (by simp [findTokenIdx])
  | cons t ts ih =>
    intro i j h
    unfold findTokenIdx at h
    by_cases hp : p t = true
    · rw [if_pos hp] at h
      injection h with h1
      subst h1
      exact ⟨t, by simp, hp⟩
    · rw [if_neg hp] at h
      have hle := findTokenIdx_le p ts (i + 1) j h
      obtain ⟨t2, hget, hp2⟩ := ih (i + 1) j h
      refine ⟨t2, ?_, hp2⟩
      have hidx : j - i = (j - (i + 1)) + 1 := by omega
      rw [hidx]
      simpa using hget

/-- The name-recovery step never touches the id field. -/
theorem recoverName_nim (tokens : List String) (idIdx : Option Nat) (r : PyResult) :
    (recoverName tokens idIdx r).nim = r.nim := by
  unfold recoverName
  split
  · split
    · split
      · rfl
      · split
        · rfl
        · split
          · rfl
          · rfl
    · rfl
  · rfl

/-- The recovered id is either the original one or a token matching the
student-ID pattern (hence never a purely numeric token). -/
theorem resolveIdentity_nim_cases (r : PyResult) (f : String) :
    (resolveIdentity r f).nim = r.nim ∨ isIdToken ((resolveIdentity r f).nim) = true := by
  unfold resolveIdentity
  by_cases hg : r.nim ≠ nimSentinel ∧ r.student_name ≠ nimSentinel
  · rw [if_pos hg]
    exact Or.inl rfl
  · rw [if_neg hg]
    simp only []
    rw [recoverName_nim]
    unfold recoverNim
    by_cases hn : r.nim = nimSentinel
    · rw [if_pos hn]
      cases hidx : findTokenIdx isIdToken (tokenizeFilename f) 0 with
      | none => exact Or.inl rfl
      | some i =>
        obtain ⟨t, hget, hp⟩ := findTokenIdx_sound isIdToken (tokenizeFilename f) 0 i hidx
        rw [Nat.sub_zero] at hget
        right
        show isIdToken (match (tokenizeFilename f).get? i with
          | some t => ({ r with nim := t } : PyResult)
          | Option.none => r).nim = true
        rw [hget]
        exact hp
    · rw [if_neg hn]
      exact Or.inl rfl

/-- C3: for every scoring result whose id and name are both non-sentinel,
fallback resolution returns the result unchanged, regardless of the
filename's content. -/
theorem identity_fallback_non_override (r : PyResult) (f : String)
    (h1 : r.nim ≠ nimSentinel) (h2 : r.student_name ≠ nimSentinel) :
    resolveIdentity r f = r := by
  unfold resolveIdentity
  rw [if_pos ⟨h1, h2⟩]

/-- Witness for C3: the repository test's concrete inputs. -/
theorem identity_fallback_non_override_witness :
    resolveIdentity ⟨"L200111222", "Nama Dari Dokumen", some 90, Py.str "ok", false⟩
      "L200240020_Holizah_Hanufi_A.pdf" =
      ⟨"L200111222", "Nama Dari Dokumen", some 90, Py.str "ok", false⟩ :=
  identity_fallback_non_override
    ⟨"L200111222", "Nama Dari Dokumen", some 90, Py.str "ok", false⟩
    "L200240020_Holizah_Hanufi_A.pdf" (by decide) (by decide)

/-- C4: a result with a sentinel id never acquires a purely numeric id: for
*any* filename the recovered id is not `"20260101"` or `"12345678"` (those
tokens lack the required letter prefix), and on the concrete filename
`IMG_20260101_12345678_report_final.pdf` the id stays the sentinel. -/
theorem identity_fallback_date_rejection (r : PyResult) (f : String)
    (hs : r.nim = nimSentinel) :
    (resolveIdentity r f).nim ≠ "20260101" ∧
    (resolveIdentity r f).nim ≠ "12345678" ∧
    (resolveIdentity r "IMG_20260101_12345678_report_final.pdf").nim = nimSentinel := by
  have hcases := resolveIdentity_nim_cases r f
  refine ⟨?_, ?_, ?_⟩
  · intro h20
    rcases hcases with hc | hc
    · have : nimSentinel = "20260101" := by rw [← hs, ← hc, h20]
      exact absurd this (by decide)
    · rw [h20] at hc
      exact absurd hc (by decide)
  · intro h12
    rcases hcases with hc | hc
    · have : nimSentinel = "12345678" := by rw [← hs, ← hc, h12]
      exact absurd this (by decide)
    · rw [h12] at hc
      exact absurd hc (by decide)
  · have hfind : findTokenIdx isIdToken
        (tokenizeFilename "IMG_20260101_12345678_report_final.pdf") 0 = Option.none := rfl
    unfold resolveIdentity
    rw [if_neg (by simp [hs])]
    simp only []
    rw [hfind, recoverName_nim]
    unfold recoverNim
    rw [if_pos hs]
    exact hs

/-- Witness for C4: a concrete sentinel-id result. -/
theorem identity_fallback_date_rejection_witness :
    (resolveIdentity ⟨"TIDAK_DITEMUKAN", "X", Option.none, Py.str "", false⟩
      "IMG_20260101_12345678_report_final.pdf").nim ≠ "20260101" ∧
    (resolveIdentity ⟨"TIDAK_DITEMUKAN", "X", Option.none, Py.str "", false⟩
      "IMG_20260101_12345678_report_final.pdf").nim ≠ "12345678" ∧
    (resolveIdentity ⟨"TIDAK_DITEMUKAN", "X", Option.none, Py.str "", false⟩
      "IMG_20260101_12345678_report_final.pdf").nim = nimSentinel :=
  identity_fallback_date_rejection
    ⟨"TIDAK_DITEMUKAN", "X", Option.none, Py.str "", false⟩
    "IMG_20260101_12345678_report_final.pdf" rfl

/-! ## Orchestration theorems -/

/-- C8: however the per-student units behave (in any completion order), the
orchestration loop converts every raising unit into an `error` StudentTask
outcome carrying the exception text, keeps processing the rest, and the job
ends `completed` (never `failed`) with the `success_count/total` summary
message. -/
theorem per_student_error_isolation (units : List (String × Except String SRes)) :
    (runScoringLoop units).status = "completed" ∧
    (runScoringLoop units).status ≠ "failed" ∧
    (runScoringLoop units).status_message =
      "Berhasil menilai " ++
        toString (((units.map (fun u => processUnit u.1 u.2)).filter
          (fun t => ¬ t.error)).length) ++ "/" ++ toString units.length ++ " laporan" ∧
    (runScoringLoop units).tasks.length = units.length ∧
    (∀ (i : Nat) (fn e : String), units.get? i = some (fn, Except.error e) →
      (runScoringLoop units).tasks.get? i =
        some ⟨fn, "error", some ("Error: " ++ e)⟩) := by
  refine ⟨rfl, ?_, rfl, by simp [runScoringLoop], ?_⟩
  · show ("completed" : String) ≠ "failed"
    decide
  intro i fn e h
  show ((units.map (fun u => processUnit u.1 u.2)).map taskRecOf).get? i = _
  rw [List.get?_map, List.get?_map, h]
  rfl

/-- Witness for C8: one succeeding unit and one raising unit. -/
theorem per_student_error_isolation_witness :
    (runScoringLoop [("a.pdf", Except.ok ⟨"1", "n", some 80, "ok", false⟩),
        ("b.pdf", Except.error "boom")]).status = "completed" ∧
    (runScoringLoop [("a.pdf", Except.ok ⟨"1", "n", some 80, "ok", false⟩),
        ("b.pdf", Except.error "boom")]).tasks.get? 1 =
      some ⟨"b.pdf", "error", some ("Error: " ++ "boom")⟩ :=
  ⟨(per_student_error_isolation [("a.pdf", (Except.ok ⟨"1", "n", some 80, "ok", false⟩ :
      Except String SRes)), ("b.pdf", Except.error "boom")]).1,
   (per_student_error_isolation [("a.pdf", (Except.ok ⟨"1", "n", some 80, "ok", false⟩ :
      Except String SRes)), ("b.pdf", Except.error "boom")]).2.2.2.2 1 "b.pdf" "boom" rfl⟩

/-! ## Report-ordering theorems -/

/-- Strict ordering of report rows by filename. -/
def rowLtByFilename (a b : RowInput) : Prop :=
  a.filename < b.filename

instance instRowLtAntisymm : IsAntisymm RowInput rowLtByFilename :=
  ⟨fun _ _ h1 h2 => absurd h2 (lt_asymm h1)⟩

/-- C9: for every result set with pairwise-distinct filenames, any two
completion orders (permutations) produce the identical report row list —
ordering is a deterministic sort by filename, so generating twice from the
same set is byte-identical. -/
theorem report_ordering_deterministic (l₁ l₂ : List RowInput)
    (hperm : l₁.Perm l₂)
    (hnodup : (l₁.map (fun r => r.filename)).Nodup) :
    generateCsvRows l₁ = generateCsvRows l₂ := by
  have htrans : ∀ a b c : RowInput, decide (a.filename ≤ b.filename) = true →
      decide (b.filename ≤ c.filename) = true →
      decide (a.filename ≤ c.filename) = true := by
    intro a b c h1 h2
    simp only [decide_eq_true_eq] at h1 h2 ⊢
    exact le_trans h1 h2
  have htotal : ∀ a b : RowInput, (decide (a.filename ≤ b.filename) ||
      decide (b.filename ≤ a.filename)) = true := by
    intro a b
    simp only [Bool.or_eq_true, decide_eq_true_eq]
    exact le_total _ _
  have hsorteq : sortResults l₁ = sortResults l₂ := by
    have hperm1 : (sortResults l₁).Perm l₁ := List.mergeSort_perm l₁ _
    have hperm2 : (sortResults l₂).Perm l₂ := List.mergeSort_perm l₂ _
    have hp : (sortResults l₁).Perm (sortResults l₂) :=
      (hperm1.trans hperm).trans hperm2.symm
    have hn1 : ((sortResults l₁).map (fun r => r.filename)).Nodup :=
      ((hperm1.map (fun r => r.filename)).nodup_iff).mpr hnodup
    have hn2 : ((sortResults l₂).map (fun r => r.filename)).Nodup :=
      ((hperm2.map (fun r => r.filename)).nodup_iff).mpr
        (((hperm.map (fun r => r.filename)).nodup_iff).mp hnodup)
    have hne1 : (sortResults l₁).Pairwise (fun a b => a.filename ≠ b.filename) :=
      List.pairwise_map.mp hn1
    have hne2 : (sortResults l₂).Pairwise (fun a b => a.filename ≠ b.filename) :=
      List.pairwise_map.mp hn2
    have hle1 : (sortResults l₁).Pairwise
        (fun a b => decide (a.filename ≤ b.filename) = true) :=
      List.sorted_mergeSort htrans htotal l₁
    have hle2 : (sortResults l₂).Pairwise
        (fun a b => decide (a.filename ≤ b.filename) = true) :=
      List.sorted_mergeSort htrans htotal l₂
    have hlt1 : List.Sorted rowLtByFilename (sortResults l₁) := by
      refine (hle1.and hne1).imp ?_
      intro a b hab
      obtain ⟨h1, h2⟩ := hab
      simp only [decide_eq_true_eq] at h1
      exact lt_of_le_of_ne h1 h2
    have hlt2 : List.Sorted rowLtByFilename (sortResults l₂) := by
      refine (hle2.and hne2).imp ?_
      intro a b hab
      obtain ⟨h1, h2⟩ := hab
      simp only [decide_eq_true_eq] at h1
      exact lt_of_le_of_ne h1 h2
    exact List.eq_of_perm_of_sorted hp hlt1 hlt2
  unfold generateCsvRows
  rw [hsorteq]

/-- Witness for C9: two rows submitted in both orders. -/
theorem report_ordering_deterministic_witness :
    generateCsvRows
        [⟨"b.pdf", "x", "y", some 1, Option.none, Option.none, "e"⟩,
         ⟨"a.pdf", "n", "m", Option.none, some "OCR Berhasil", some "d", "ev"⟩] =
      generateCsvRows
        [⟨"a.pdf", "n", "m", Option.none, some "OCR Berhasil", some "d", "ev"⟩,
         ⟨"b.pdf", "x", "y", some 1, Option.none, Option.none, "e"⟩] :=
  report_ordering_deterministic _ _
    (List.Perm.swap
      (⟨"a.pdf", "n", "m", Option.none, some "OCR Berhasil", some "d", "ev"⟩ : RowInput)
      (⟨"b.pdf", "x", "y", some 1, Option.none, Option.none, "e"⟩ : RowInput) [])
    (by decide)

end AutoScore
